import Mathlib

/-!
Shallow embedding of the interaction router of this repository
(`src/src/index.ts`): the debug serializer, the error renderer, the
error-catching middleware, and the five interaction-resolution handlers
(`GET /interaction/:uid`, `POST .../login`, `POST .../federated`,
`POST .../continue`, `POST .../confirm`, `GET .../abort`).

External collaborators (the OIDC engine `provider`, the account store
`Account`, the federated client `ctx.google`, Node's `crypto.randomBytes`)
are passed in as explicit inputs/oracles; handler side effects that matter
to ordering (cookie reads/writes, the token exchange, `interaction.save`,
`interactionFinished`) are recorded in explicit effect traces.
-/

namespace OidcExample

/-! ## String infrastructure -/

/-- Separator-joining of a list of strings, as `Array.prototype.join` /
`querystring.stringify` do between encoded `key=value` pairs. -/
def joinSep (sep : String) : List String → String
  | [] => ""
  | [x] => x
  | x :: y :: ys => x ++ sep ++ joinSep sep (y :: ys)

/-- `needle` occurs verbatim (contiguously) inside `hay`. -/
def strContains (hay needle : String) : Prop :=
  ∃ pre post, hay = pre ++ needle ++ post

/-! ## JavaScript values

A model of the JavaScript values that flow through the debug serializer:
primitives, arrays and plain objects (an object is its ordered list of
own enumerable string-keyed entries, as `Object.entries` yields it). -/

inductive JsValue where
  | str (s : String)
  | num (n : Int)
  | bool (b : Bool)
  | null
  | undefined
  | arr (xs : List JsValue)
  | obj (fs : List (String × JsValue))

/-- Modelled from lodash `isEmpty`: `null`/`undefined`, numbers and booleans
are empty; strings, arrays and objects are empty exactly when they have no
characters / elements / own keys. -/
def isEmpty : JsValue → Bool
  | .str s => s == ""
  | .num _ => true
  | .bool _ => true
  | .null => true
  | .undefined => true
  | .arr xs => xs.isEmpty
  | .obj fs => fs.isEmpty

mutual

/-- Modelled from Node `util.inspect(value, { depth: null })` on the value
shapes above: strings are single-quoted, primitives are printed literally,
arrays and objects are rendered recursively with `[ .. ]` / braces. -/
def inspect : JsValue → String
  | .str s => "\x27" ++ s ++ "\x27"
  | .num n => toString n
  | .bool b => cond b "true" "false"
  | .null => "null"
  | .undefined => "undefined"
  | .arr [] => "[]"
  | .arr (x :: xs) => "[ " ++ inspectElems (x :: xs) ++ " ]"
  | .obj [] => "\x7b\x7d"
  | .obj (f :: fs) => "\x7b " ++ inspectProps (f :: fs) ++ " \x7d"

/-- Comma-separated inspection of array elements. -/
def inspectElems : List JsValue → String
  | [] => ""
  | [v] => inspect v
  | v :: vs => inspect v ++ ", " ++ inspectElems vs

/-- Comma-separated inspection of object properties. -/
def inspectProps : List (String × JsValue) → String
  | [] => ""
  | [(k, v)] => k ++ ": " ++ inspect v
  | (k, v) :: fs => k ++ ": " ++ inspect v ++ ", " ++ inspectProps fs

end

/-! ## Debug serializer (`debug` and the module-level `keys` set)

The source keeps `const keys = new Set()` at module scope and mutates it
from inside `debug`; here that set is the explicit state `DebugState`,
threaded through each call, with `debugInit` the state at module load. -/

/-- The module-level `keys` set (`const keys = new Set()`); membership is
what matters, the list keeps first-insertion order like a JS `Set`. -/
structure DebugState where
  keys : List String
deriving DecidableEq

/-- The `keys` set as it stands when the module has just been loaded. -/
def debugInit : DebugState := ⟨[]⟩

/-- One step of the `Object.entries(obj).reduce` inside `debug`: the key is
added to the module-level set first (`keys.add(key)`), then the entry is
dropped if `isEmpty(value)`, else `acc[key] = inspect(value, { depth: null })`. -/
def debugStep (acc : DebugState × List (String × String)) (kv : String × JsValue) :
    DebugState × List (String × String) :=
  let ks := if acc.1.keys.contains kv.1 then acc.1.keys else acc.1.keys ++ [kv.1]
  if isEmpty kv.2 then (⟨ks⟩, acc.2)
  else (⟨ks⟩, acc.2 ++ [(kv.1, inspect kv.2)])

/-- The `encodeURIComponent` override handed to `querystring.stringify`:
no escaping at all, only `<strong>` wrapping when the component is a member
of the module-level `keys` set. -/
def encodeURIComponent (ks : List String) (value : String) : String :=
  if ks.contains value then "<strong>" ++ value ++ "</strong>" else value

/-- The `debug` helper: reduce the record against the module-level key set,
then `querystring.stringify(acc, "<br/>", ": ", { encodeURIComponent })`,
which renders each surviving entry as `enc(key) ++ ": " ++ enc(value)`
joined by `"<br/>"`.  Returns the updated module state and the output. -/
def debug (st : DebugState) (obj : List (String × JsValue)) : DebugState × String :=
  let p := obj.foldl debugStep (st, [])
  (p.1, joinSep "<br/>"
    (p.2.map fun kv => encodeURIComponent p.1.keys kv.1 ++ ": " ++ encodeURIComponent p.1.keys kv.2))

/-- Spec-side companion of `debug`, following the specification's words:
the pairs a single render is said to emit — exactly the entries whose value
is non-empty, each rendered by deep inspection. -/
def specEmittedPairs (obj : List (String × JsValue)) : List (String × String) :=
  (obj.filter fun kv => !isEmpty kv.2).map fun kv => (kv.1, inspect kv.2)

/-! ## Hex encoding (`crypto.randomBytes(32).toString("hex")`)

`randomBytes` itself is a random draw, modelled as an explicit list of
byte values (`< 256`) supplied to the handler; the `"hex"` rendering is
embedded below. -/

/-- Lowercase hexadecimal digit for `n < 16` (`0`–`9`, `a`–`f`). -/
def hexDigit (n : Nat) : Char :=
  if n < 10 then Char.ofNat (48 + n) else Char.ofNat (87 + n)

/-- `Buffer.toString("hex")`: two lowercase hex digits per byte, in order. -/
def bytesToHexChars : List Nat → List Char
  | [] => []
  | b :: bs => hexDigit (b / 16) :: hexDigit (b % 16) :: bytesToHexChars bs

/-- `Buffer.toString("hex")` as a string. -/
def bytesToHex (bs : List Nat) : String := ⟨bytesToHexChars bs⟩

/-- Character class of lowercase hexadecimal digits. -/
def isHexChar (c : Char) : Bool :=
  (48 ≤ c.toNat && c.toNat ≤ 57) || (97 ≤ c.toNat && c.toNat ≤ 102)

/-! ## Router data model -/

/-- An account as the account store returns it: an opaque identifier
(`account.accountId` is all the router reads). -/
structure Account where
  accountId : String
deriving DecidableEq

/-- The authenticated session attached to an interaction, when present. -/
structure SessionData where
  accountId : String
deriving DecidableEq

/-- The slice of `provider.interactionDetails` the handlers read:
`uid`, `prompt.name`, `params.prompt` and the optional `session`. -/
structure Interaction where
  uid : String
  promptName : String
  paramsPrompt : Option String
  session : Option SessionData
deriving DecidableEq

/-- `login: { account }` inside a resolution result. -/
structure LoginResult where
  account : String
deriving DecidableEq

/-- `consent: { rejectedScopes, rejectedClaims, replace }` inside a
resolution result. -/
structure ConsentResult where
  rejectedScopes : List String
  rejectedClaims : List String
  replace : Bool
deriving DecidableEq

/-- The `result` object handed to `provider.interactionFinished`: any of
the optional members the routes construct (`{}` is the record with every
member absent). -/
structure InteractionResults where
  select_account : Option Unit := none
  login : Option LoginResult := none
  consent : Option ConsentResult := none
  error : Option String := none
  error_description : Option String := none
deriving DecidableEq

/-- Claims returned by `tokenset.claims()` / consumed by `findByFederated`. -/
abbrev Claims := List (String × JsValue)

/-! ## GET /interaction/:uid -/

/-- What the GET handler does with the interaction: resolve it through
`provider.interactionFinished`, render a named view, or fall through to
`next()`.  (The render context — client metadata, email claim, debug
panels — only feeds the view and is not part of the dispatch outcome.) -/
inductive GetOutcome where
  | finished (result : InteractionResults) (merge : Bool)
  | rendered (view : String)
  | next
deriving DecidableEq

/-- The `router.get("/interaction/:uid")` handler: switch on `prompt.name`;
for `select_account` without a session resolve at once with
`{ select_account: {} }` and `mergeWithLastSubmission: false`, otherwise
render `select_account`; `login` and `consent` render their views; any
other prompt falls through to `next()`. -/
def interactionGet (i : Interaction) : GetOutcome :=
  match i.promptName with
  | "select_account" =>
    match i.session with
    | none => .finished { select_account := some () } false
    | some _ => .rendered "select_account"
  | "login" => .rendered "login"
  | "consent" => .rendered "interaction"
  | _ => .next

/-! ## POST /interaction/:uid/login -/

/-- The `router.post("/interaction/:uid/login")` handler, given the result
of `Account.findByLogin(ctx.request.body.login)`: `assert.equal(name,
"login")` (an `AssertionError` when violated), then resolve with
`{ select_account: {}, login: { account } }` when an account was found and
with `{}` otherwise, always with `mergeWithLastSubmission: false`. -/
def interactionLogin (promptName : String) (account : Option Account) :
    Except String (InteractionResults × Bool) :=
  if promptName = "login" then
    let result : InteractionResults :=
      match account with
      | some account => { select_account := some (), login := some ⟨account.accountId⟩ }
      | none => {}
    .ok (result, false)
  else
    .error "AssertionError"

/-! ## POST /interaction/:uid/federated -/

/-- Observable side effects of the federated handler, in program order. -/
inductive FedEffect where
  | readCookie (name : String)
  | setCookie (name value path : String) (sameSiteStrict : Bool)
  | tokenExchange (state nonce : Option String)
  | redirect (url : String)
  | finishInteraction (result : InteractionResults) (merge : Bool)
deriving DecidableEq

/-- A run of the federated handler: the effects it performed, in order,
and the error it threw if it did not return normally (effects already
performed stay performed when a later step throws). -/
structure FedRun where
  trace : List FedEffect
  thrown : Option String
deriving DecidableEq

/-- The federated client `ctx.google`, as an oracle: `callback` is the
token exchange (given the callback params and the `state`/`nonce` checks;
it may throw), `authorizationUrl` builds the redirect target. -/
structure GoogleClient where
  callback : List (String × String) → Option String → Option String → Except String Claims
  authorizationUrl : String → String → String → String

/-- The four cookie operations the completion branch performs, followed by
the token exchange, exactly in source order: read `google.state`, clear it,
read `google.nonce`, clear it, then `await ctx.google.callback(...)`. -/
def fedClearEffects (uid : String) (cookieState cookieNonce : Option String) : List FedEffect :=
  [ .readCookie "google.state",
    .setCookie "google.state" "" ("/interaction/" ++ uid ++ "/federated") false,
    .readCookie "google.nonce",
    .setCookie "google.nonce" "" ("/interaction/" ++ uid ++ "/federated") false,
    .tokenExchange cookieState cookieNonce ]

/-- The `router.post("/interaction/:uid/federated")` handler.
`assert.equal(name, "login")`; switch on `ctx.request.body.provider`
(only `"google"` is wired, anything else returns `undefined`).  With
callback params present: read and clear the `google.state`/`google.nonce`
cookies, exchange the params (which may throw), look the account up with
`Account.findByFederated("google", tokenset.claims())` and resolve exactly
as the login route does.  Without callback params: build
`state = uid + "|" + randomBytes(32).toString("hex")` and a hex nonce,
set both cookies (`sameSite: "strict"`) and redirect to
`authorizationUrl({ state, nonce, scope: "openid email profile" })`. -/
def interactionFederated (promptName uid provider : String) (google : GoogleClient)
    (findByFederated : String → Claims → Option Account)
    (callbackParams : List (String × String)) (cookieState cookieNonce : Option String)
    (rand1 rand2 : List Nat) : FedRun :=
  if promptName = "login" then
    match provider with
    | "google" =>
      if callbackParams.length ≠ 0 then
        match google.callback callbackParams cookieState cookieNonce with
        | .error e => { trace := fedClearEffects uid cookieState cookieNonce, thrown := some e }
        | .ok claims =>
          let result : InteractionResults :=
            match findByFederated "google" claims with
            | some account => { select_account := some (), login := some ⟨account.accountId⟩ }
            | none => {}
          { trace := fedClearEffects uid cookieState cookieNonce ++
              [.finishInteraction result false],
            thrown := none }
      else
        let state := uid ++ "|" ++ bytesToHex rand1
        let nonce := bytesToHex rand2
        { trace := [
            .setCookie "google.state" state ("/interaction/" ++ uid ++ "/federated") true,
            .setCookie "google.nonce" nonce ("/interaction/" ++ uid ++ "/federated") true,
            .redirect (google.authorizationUrl state nonce "openid email profile") ],
          thrown := none }
    | _ => { trace := [], thrown := none }
  else { trace := [], thrown := some "AssertionError" }

/-! ## POST /interaction/:uid/continue -/

/-- Observable side effects of the continue handler, in program order:
the `interaction.save()` after mutating `interaction.params.prompt`
(recorded with the value just written), and `interactionFinished`. -/
inductive ContinueEffect where
  | save (newParamsPrompt : Option String)
  | finishInteraction (result : InteractionResults) (merge : Bool)
deriving DecidableEq

/-- The `router.post("/interaction/:uid/continue")` handler.
`assert.equal(name, "select_account")`; when the body requests `switch`,
mutate `interaction.params.prompt` — the JS test `if
(interaction.params.prompt)` is truthiness, so a present non-empty string
gets `"login"` appended to its space-split list, while `undefined` (and
the falsy empty string) becomes `"logout"` — and `await interaction.save()`;
finally resolve with `{ select_account: {} }`, `mergeWithLastSubmission:
false`. -/
def interactionContinue (promptName : String) (paramsPrompt : Option String)
    (bodySwitch : Bool) : Except String (List ContinueEffect) :=
  if promptName = "select_account" then
    let saveEffects : List ContinueEffect :=
      if bodySwitch then
        [.save (some (
          match paramsPrompt with
          | some p =>
            if p == "" then "logout"
            else String.intercalate " " (p.splitOn " " ++ ["login"])
          | none => "logout"))]
      else []
    .ok (saveEffects ++ [.finishInteraction { select_account := some () } false])
  else .error "AssertionError"

/-! ## POST /interaction/:uid/confirm and GET /interaction/:uid/abort -/

/-- The `router.post("/interaction/:uid/confirm")` handler.
`assert.equal(name, "consent")`; resolve with a consent result carrying
`rejectedScopes: []`, `rejectedClaims: []`, `replace: false`, and —
uniquely among the routes — `mergeWithLastSubmission: true`. -/
def interactionConfirm (promptName : String) : Except String (InteractionResults × Bool) :=
  if promptName = "consent" then
    .ok ({ consent := some { rejectedScopes := [], rejectedClaims := [], replace := false } },
      true)
  else .error "AssertionError"

/-- The `router.get("/interaction/:uid/abort")` handler: resolve with an
`access_denied` error result, `mergeWithLastSubmission: false`. -/
def interactionAbort : InteractionResults × Bool :=
  ({ error := some "access_denied",
     error_description := some "End-User aborted interaction" }, false)

/-! ## Error renderer and top-level middleware -/

/-- One `<pre><strong>key</strong>: value</pre>` row of the error page. -/
def renderPair (kv : String × String) : String :=
  "<pre><strong>" ++ kv.1 ++ "</strong>: " ++ kv.2 ++ "</pre>"

/-- The static error page up to the interpolation point. -/
def errorHead : String :=
  "<!DOCTYPE html>\n<head>\n  <meta charset=\"utf-8\">\n  <title>oops! something went wrong</title>\n  <meta name=\"viewport\" content=\"width=device-width, initial-scale=1, shrink-to-fit=no\">\n  <meta http-equiv=\"x-ua-compatible\" content=\"ie=edge\">\n  <style>\n    @import url(https://fonts.googleapis.com/css?family=Roboto:400,100);h1\x7bfont-weight:100;text-align:center;font-size:2.3em\x7dbody\x7bfont-family:Roboto,sans-serif;margin-top:25px;margin-bottom:25px\x7d.container\x7bpadding:0 40px 10px;width:274px;background-color:#F7F7F7;margin:0 auto 10px;border-radius:2px;box-shadow:0 2px 2px rgba(0,0,0,.3);overflow:hidden\x7dpre\x7bwhite-space:pre-wrap;white-space:-moz-pre-wrap;white-space:-pre-wrap;white-space:-o-pre-wrap;word-wrap:break-word;margin:0 0 0 1em;text-indent:-1em\x7d\n  </style>\n</head>\n<body>\n  <div class=\"container\">\n    <h1>oops! something went wrong</h1>\n    "

/-- The static error page after the interpolation point. -/
def errorTail : String := "\n  </div>\n</body>\n</html>"

/-- `renderError`: the HTML document assigned to `ctx.body`, with one
`<pre>` row per entry of `out` (`Object.entries(out).map(...).join("")`). -/
def renderErrorBody (out : List (String × String)) : String :=
  errorHead ++ String.join (out.map renderPair) ++ errorTail

/-- The engine's `SessionNotFound` error shape as the middleware reads it:
`status`, `message` and `error_description`. -/
structure SessionNotFoundError where
  status : Nat
  message : String
  error_description : String
deriving DecidableEq

/-- An error thrown by a downstream handler, as the `instanceof
SessionNotFound` test distinguishes it. -/
inductive RouterError where
  | sessionNotFound (e : SessionNotFoundError)
  | other (message : String)
deriving DecidableEq

/-- Result of the top-level middleware around one request. -/
structure MwResult where
  headers : List (String × String)
  status : Option Nat
  body : Option String
  rethrown : Option RouterError
deriving DecidableEq

/-- The `router.use` middleware: set the two no-cache headers, run the
downstream handler; catch a thrown `SessionNotFound` by copying its
`status` onto the response and rendering the static error page over
`{ error: err.message, error_description: err.error_description }`;
rethrow every other error unchanged. -/
def routerUse (downstream : Except RouterError Unit) : MwResult :=
  let hs := [("Pragma", "no-cache"), ("Cache-Control", "no-cache, no-store")]
  match downstream with
  | .ok _ => { headers := hs, status := none, body := none, rethrown := none }
  | .error (.sessionNotFound e) =>
    { headers := hs, status := some e.status,
      body := some (renderErrorBody
        [("error", e.message), ("error_description", e.error_description)]),
      rethrown := none }
  | .error (.other m) =>
    { headers := hs, status := none, body := none, rethrown := some (.other m) }

/-! ## Helper lemmas -/

/-- `bytesToHex` is the string over `bytesToHexChars`. -/
theorem bytesToHex_data (bs : List Nat) : (bytesToHex bs).data = bytesToHexChars bs := rfl

/-- Each byte contributes exactly two characters. -/
theorem bytesToHexChars_length (bs : List Nat) :
    (bytesToHexChars bs).length = 2 * bs.length := by
  induction bs with
  | nil => rfl
  | cons b bs ih => simp [bytesToHexChars, ih]; omega

/-- `hexDigit` is injective below 16. -/
theorem hexDigit_inj : ∀ m < 16, ∀ n < 16, hexDigit m = hexDigit n → m = n := by decide

/-- `hexDigit` lands in the lowercase hexadecimal alphabet below 16. -/
theorem hexDigit_isHex : ∀ n < 16, isHexChar (hexDigit n) = true := by decide

/-- Hex rendering is injective on byte lists. -/
theorem bytesToHexChars_inj : ∀ (bs cs : List Nat), (∀ b ∈ bs, b < 256) →
    (∀ c ∈ cs, c < 256) → bytesToHexChars bs = bytesToHexChars cs → bs = cs := by
  intro bs
  induction bs with
  | nil =>
    intro cs _ _ h
    cases cs with
    | nil => rfl
    | cons c cs => simp [bytesToHexChars] at h
  | cons b bs ih =>
    intro cs hb hc h
    cases cs with
    | nil => simp [bytesToHexChars] at h
    | cons c cs =>
      simp only [bytesToHexChars, List.cons.injEq] at h
      obtain ⟨h1, h2, h3⟩ := h
      have hb1 : b < 256 := hb b (List.mem_cons_self b bs)
      have hc1 : c < 256 := hc c (List.mem_cons_self c cs)
      have hd1 : b / 16 < 16 := by omega
      have hd2 : c / 16 < 16 := by omega
      have he1 : b % 16 < 16 := Nat.mod_lt b (by omega)
      have he2 : c % 16 < 16 := Nat.mod_lt c (by omega)
      have hq := hexDigit_inj (b / 16) hd1 (c / 16) hd2 h1
      have hr := hexDigit_inj (b % 16) he1 (c % 16) he2 h2
      have hbc : b = c := by omega
      have := ih cs (fun x hx => hb x (List.mem_cons_of_mem b hx))
        (fun x hx => hc x (List.mem_cons_of_mem c hx)) h3
      rw [hbc, this]

/-- Every character of the hex rendering is a lowercase hex digit. -/
theorem bytesToHexChars_isHex : ∀ (bs : List Nat), (∀ b ∈ bs, b < 256) →
    ∀ c ∈ bytesToHexChars bs, isHexChar c = true := by
  intro bs
  induction bs with
  | nil => intro _ c hm; cases hm
  | cons b bs ih =>
    intro hb c hm
    have hb1 : b < 256 := hb b (List.mem_cons_self b bs)
    simp only [bytesToHexChars, List.mem_cons] at hm
    rcases hm with rfl | hm
    · exact hexDigit_isHex (b / 16) (by omega)
    rcases hm with rfl | hm
    · exact hexDigit_isHex (b % 16) (Nat.mod_lt b (by omega))
    · exact ih (fun x hx => hb x (List.mem_cons_of_mem b hx)) c hm

/-! ## Claim theorems -/

/-- Claim C1: for every interaction whose pending prompt is `select_account`
and whose details carry no existing session, the `GET /interaction/:uid`
handler resolves the interaction immediately with `{ select_account: {} }`
and `mergeWithLastSubmission: false`, and renders no view (the outcome is
`finished`, not `rendered`). -/
theorem get_select_account_no_session (i : Interaction)
    (hp : i.promptName = "select_account") (hs : i.session = none) :
    interactionGet i = .finished { select_account := some () } false := by
  simp [interactionGet, hp, hs]

/-- Witness for C1 at a concrete interaction. -/
theorem get_select_account_no_session_witness :
    interactionGet ⟨"abc", "select_account", none, none⟩ =
      .finished { select_account := some () } false :=
  get_select_account_no_session ⟨"abc", "select_account", none, none⟩ rfl rfl

/-- Claim C3: a federated-handshake initiation (no callback params) sets the
`google.state` cookie to exactly `uid ++ "|" ++` the 64-character lowercase
hex rendering of the 32 random bytes; the hex part has length 64 and only
hexadecimal characters, and two initiations for the same `uid` with distinct
random draws produce different state values. -/
theorem federated_state_cookie_format :
    (∀ (uid : String) (g : GoogleClient) (f : String → Claims → Option Account)
        (cs cn : Option String) (r1 r2 : List Nat),
      interactionFederated "login" uid "google" g f [] cs cn r1 r2 =
        { trace := [
            .setCookie "google.state" (uid ++ "|" ++ bytesToHex r1)
              ("/interaction/" ++ uid ++ "/federated") true,
            .setCookie "google.nonce" (bytesToHex r2)
              ("/interaction/" ++ uid ++ "/federated") true,
            .redirect (g.authorizationUrl (uid ++ "|" ++ bytesToHex r1) (bytesToHex r2)
              "openid email profile") ],
          thrown := none }) ∧
    (∀ r1 : List Nat, r1.length = 32 → (bytesToHex r1).length = 64) ∧
    (∀ r1 : List Nat, (∀ b ∈ r1, b < 256) → ∀ c ∈ (bytesToHex r1).data, isHexChar c = true) ∧
    (∀ (uid : String) (r1 r1' : List Nat), (∀ b ∈ r1, b < 256) → (∀ b ∈ r1', b < 256) →
      r1 ≠ r1' → uid ++ "|" ++ bytesToHex r1 ≠ uid ++ "|" ++ bytesToHex r1') := by
  refine ⟨fun uid g f cs cn r1 r2 => rfl, fun r1 h => ?_, fun r1 h => ?_, ?_⟩
  · have := bytesToHexChars_length r1
    simp only [bytesToHex, String.length, h] at *
    omega
  · exact bytesToHexChars_isHex r1 h
  · intro uid r1 r1' h1 h2 hne heq
    apply hne
    have hd := congrArg String.data heq
    simp only [String.data_append, bytesToHex_data] at hd
    have hd2 := List.append_cancel_left hd
    exact bytesToHexChars_inj r1 r1' h1 h2 hd2

/-- Witness for C3: concrete length, hex and distinctness instances. -/
theorem federated_state_cookie_format_witness :
    (bytesToHex (List.replicate 32 0)).length = 64 ∧
    "abc" ++ "|" ++ bytesToHex (List.replicate 32 0) ≠
      "abc" ++ "|" ++ bytesToHex (1 :: List.replicate 31 0) := by
  constructor
  · exact federated_state_cookie_format.2.1 (List.replicate 32 0) (by decide)
  · exact federated_state_cookie_format.2.2.2 "abc" (List.replicate 32 0)
      (1 :: List.replicate 31 0) (by decide) (by decide) (by decide)

/-- Claim C4: in the federated completion branch (`provider: "google"`,
non-empty callback params) the `google.state`/`google.nonce` cookies are
read and cleared strictly before the token exchange is evaluated — the run
trace always begins with the read/clear/read/clear effects followed by the
exchange (`fedClearEffects`), both when the exchange throws (in which case
nothing else happens) and when it succeeds. -/
theorem federated_clears_cookies_before_exchange
    (uid : String) (g : GoogleClient) (f : String → Claims → Option Account)
    (cbs : List (String × String)) (cs cn : Option String) (r1 r2 : List Nat)
    (hcb : cbs ≠ []) :
    (∃ rest, (interactionFederated "login" uid "google" g f cbs cs cn r1 r2).trace =
      fedClearEffects uid cs cn ++ rest) ∧
    (∀ e, g.callback cbs cs cn = .error e →
      interactionFederated "login" uid "google" g f cbs cs cn r1 r2 =
        { trace := fedClearEffects uid cs cn, thrown := some e }) ∧
    (∀ claims, g.callback cbs cs cn = .ok claims →
      ∃ result, interactionFederated "login" uid "google" g f cbs cs cn r1 r2 =
        { trace := fedClearEffects uid cs cn ++ [.finishInteraction result false],
          thrown := none }) := by
  have hlen : cbs.length ≠ 0 := by
    cases cbs with
    | nil => exact absurd rfl hcb
    | cons x xs => simp
  refine ⟨?_, ?_, ?_⟩
  · cases hc : g.callback cbs cs cn with
    | error e =>
      refine ⟨[], ?_⟩
      simp [interactionFederated, hlen, hc]
    | ok claims =>
      refine ⟨[.finishInteraction
        (match f "google" claims with
          | some account => { select_account := some (), login := some ⟨account.accountId⟩ }
          | none => {}) false], ?_⟩
      simp [interactionFederated, hlen, hc]
  · intro e hc
    simp [interactionFederated, hlen, hc]
  · intro claims hc
    refine ⟨(match f "google" claims with
      | some account => { select_account := some (), login := some ⟨account.accountId⟩ }
      | none => {}), ?_⟩
    simp [interactionFederated, hlen, hc]

/-- Witness for C4: the cookies are cleared even when the exchange throws. -/
theorem federated_clears_cookies_before_exchange_witness :
    interactionFederated "login" "abc" "google"
      ⟨fun _ _ _ => .error "exchange failed", fun _ _ _ => ""⟩
      (fun _ _ => none) [("code", "x")] (some "s") (some "n") [] [] =
      { trace := fedClearEffects "abc" (some "s") (some "n"),
        thrown := some "exchange failed" } :=
  (federated_clears_cookies_before_exchange "abc"
    ⟨fun _ _ _ => .error "exchange failed", fun _ _ _ => ""⟩
    (fun _ _ => none) [("code", "x")] (some "s") (some "n") [] []
    (by decide)).2.1 "exchange failed" rfl

/-- Claim C2: on the login submission and on the federated-callback
completion, a successful account lookup resolves the interaction with
exactly `{ select_account: {}, login: { account } }` and a failed lookup
resolves it with the empty result `{}` (a re-prompt, not an error); in both
routes and both cases `mergeWithLastSubmission` is `false`. -/
theorem login_and_federated_resolution :
    (∀ a : Account, interactionLogin "login" (some a) =
      .ok ({ select_account := some (), login := some ⟨a.accountId⟩ }, false)) ∧
    (interactionLogin "login" none = .ok (({} : InteractionResults), false)) ∧
    (∀ (uid : String) (g : GoogleClient) (f : String → Claims → Option Account)
        (cbs : List (String × String)) (cs cn : Option String) (r1 r2 : List Nat)
        (claims : Claims) (a : Account),
      cbs ≠ [] → g.callback cbs cs cn = .ok claims → f "google" claims = some a →
      interactionFederated "login" uid "google" g f cbs cs cn r1 r2 =
        { trace := fedClearEffects uid cs cn ++
            [.finishInteraction { select_account := some (), login := some ⟨a.accountId⟩ }
              false],
          thrown := none }) ∧
    (∀ (uid : String) (g : GoogleClient) (f : String → Claims → Option Account)
        (cbs : List (String × String)) (cs cn : Option String) (r1 r2 : List Nat)
        (claims : Claims),
      cbs ≠ [] → g.callback cbs cs cn = .ok claims → f "google" claims = none →
      interactionFederated "login" uid "google" g f cbs cs cn r1 r2 =
        { trace := fedClearEffects uid cs cn ++
            [.finishInteraction ({} : InteractionResults) false],
          thrown := none }) := by
  refine ⟨fun a => rfl, rfl, ?_, ?_⟩
  · intro uid g f cbs cs cn r1 r2 claims a hne hcb hf
    have hlen : cbs.length ≠ 0 := by cases cbs with
      | nil => exact absurd rfl hne
      | cons x xs => simp
    simp [interactionFederated, hlen, hcb, hf]
  · intro uid g f cbs cs cn r1 r2 claims hne hcb hf
    have hlen : cbs.length ≠ 0 := by cases cbs with
      | nil => exact absurd rfl hne
      | cons x xs => simp
    simp [interactionFederated, hlen, hcb, hf]

/-- Witness for C2: concrete found/not-found instances on both routes. -/
theorem login_and_federated_resolution_witness :
    interactionLogin "login" (some ⟨"u1"⟩) =
      .ok ({ select_account := some (), login := some ⟨"u1"⟩ }, false) ∧
    interactionLogin "login" none = .ok (({} : InteractionResults), false) ∧
    interactionFederated "login" "abc" "google"
        ⟨fun _ _ _ => .ok [], fun _ _ _ => ""⟩ (fun _ _ => some ⟨"u1"⟩)
        [("code", "x")] none none [] [] =
      { trace := fedClearEffects "abc" none none ++
          [.finishInteraction { select_account := some (), login := some ⟨"u1"⟩ } false],
        thrown := none } ∧
    interactionFederated "login" "abc" "google"
        ⟨fun _ _ _ => .ok [], fun _ _ _ => ""⟩ (fun _ _ => none)
        [("code", "x")] none none [] [] =
      { trace := fedClearEffects "abc" none none ++
          [.finishInteraction ({} : InteractionResults) false],
        thrown := none } :=
  ⟨login_and_federated_resolution.1 ⟨"u1"⟩,
   login_and_federated_resolution.2.1,
   login_and_federated_resolution.2.2.1 "abc" ⟨fun _ _ _ => .ok [], fun _ _ _ => ""⟩
     (fun _ _ => some ⟨"u1"⟩) [("code", "x")] none none [] [] [] ⟨"u1"⟩
     (by decide) rfl rfl,
   login_and_federated_resolution.2.2.2 "abc" ⟨fun _ _ _ => .ok [], fun _ _ _ => ""⟩
     (fun _ _ => none) [("code", "x")] none none [] [] []
     (by decide) rfl rfl⟩

/-- Claim C5: on the continue route with a `switch` body, a (truthy) present
`params.prompt` is replaced by its space-split list with `login` appended,
an absent one becomes `logout` (the code tests JS truthiness, so the falsy
empty string also becomes `logout`); the `interaction.save()` precedes the
resolution in the effect trace; and in every case the handler resolves with
`{ select_account: {} }` and `mergeWithLastSubmission: false`. -/
theorem continue_switch_account :
    (∀ (pp : Option String) (sw : Bool), ∃ saves,
      interactionContinue "select_account" pp sw =
        .ok (saves ++ [.finishInteraction { select_account := some () } false])) ∧
    (∀ p : String, p ≠ "" → interactionContinue "select_account" (some p) true =
      .ok [.save (some (String.intercalate " " (p.splitOn " " ++ ["login"]))),
           .finishInteraction { select_account := some () } false]) ∧
    (interactionContinue "select_account" none true =
      .ok [.save (some "logout"), .finishInteraction { select_account := some () } false]) ∧
    (interactionContinue "select_account" (some "") true =
      .ok [.save (some "logout"), .finishInteraction { select_account := some () } false]) ∧
    (∀ pp : Option String, interactionContinue "select_account" pp false =
      .ok [.finishInteraction { select_account := some () } false]) := by
  refine ⟨fun pp sw => ?_, fun p hp => ?_, rfl, rfl, fun pp => rfl⟩
  · unfold interactionContinue
    simp only [if_pos rfl]
    exact ⟨_, rfl⟩
  · simp [interactionContinue, hp]

/-- Witness for C5 at a concrete prompt list. -/
theorem continue_switch_account_witness :
    interactionContinue "select_account" (some "consent") true =
      .ok [.save (some (String.intercalate " " ("consent".splitOn " " ++ ["login"]))),
           .finishInteraction { select_account := some () } false] :=
  continue_switch_account.2.1 "consent" (by decide)

/-- Claim C6: the confirm route always resolves with a consent result whose
`rejectedScopes` and `rejectedClaims` are empty and whose `replace` is
`false`, with `mergeWithLastSubmission: true`; and it is the only
resolution route passing `true` — the GET dispatcher, the login, federated
and continue submissions, and abort all pass `false`. -/
theorem confirm_only_route_merging :
    (interactionConfirm "consent" =
      .ok ({ consent := some { rejectedScopes := [], rejectedClaims := [], replace := false } },
        true)) ∧
    (∀ (n : String) (r : InteractionResults) (b : Bool),
      interactionConfirm n = .ok (r, b) → b = true) ∧
    (∀ (i : Interaction) (r : InteractionResults) (b : Bool),
      interactionGet i = .finished r b → b = false) ∧
    (∀ (n : String) (a : Option Account) (r : InteractionResults) (b : Bool),
      interactionLogin n a = .ok (r, b) → b = false) ∧
    (∀ (pn uid pv : String) (g : GoogleClient) (f : String → Claims → Option Account)
        (cbs : List (String × String)) (cs cn : Option String) (r1 r2 : List Nat)
        (res : InteractionResults) (b : Bool),
      FedEffect.finishInteraction res b ∈
        (interactionFederated pn uid pv g f cbs cs cn r1 r2).trace → b = false) ∧
    (∀ (n : String) (pp : Option String) (sw : Bool) (tr : List ContinueEffect)
        (res : InteractionResults) (b : Bool),
      interactionContinue n pp sw = .ok tr →
        ContinueEffect.finishInteraction res b ∈ tr → b = false) ∧
    interactionAbort.2 = false := by
  refine ⟨rfl, ?_, ?_, ?_, ?_, ?_, rfl⟩
  · intro n r b h
    unfold interactionConfirm at h
    split at h
    · exact ((Prod.mk.injEq _ _ _ _).mp (Except.ok.inj h)).2.symm
    · exact absurd h (by simp)
  · intro i r b h
    unfold interactionGet at h
    split at h
    · split at h
      · exact ((GetOutcome.finished.injEq _ _ _ _).mp h).2.symm
      · exact absurd h (by simp)
    · exact absurd h (by simp)
    · exact absurd h (by simp)
    · exact absurd h (by simp)
  · intro n a r b h
    unfold interactionLogin at h
    split at h
    · exact ((Prod.mk.injEq _ _ _ _).mp (Except.ok.inj h)).2.symm
    · exact absurd h (by simp)
  · intro pn uid pv g f cbs cs cn r1 r2 res b h
    unfold interactionFederated at h
    split at h
    · split at h
      · split at h
        · split at h
          · simp [fedClearEffects] at h
          · simp only [List.mem_append, List.mem_singleton] at h
            rcases h with h | h
            · simp [fedClearEffects] at h
            · exact ((FedEffect.finishInteraction.injEq _ _ _ _).mp h).2
        · simp at h
      · simp at h
    · simp at h
  · intro n pp sw tr res b h hm
    unfold interactionContinue at h
    split at h
    · have htr := Except.ok.inj h
      subst htr
      simp only [List.mem_append, List.mem_singleton] at hm
      rcases hm with hm | hm
      · split at hm
        · simp at hm
        · cases hm
      · exact ((ContinueEffect.finishInteraction.injEq _ _ _ _).mp hm).2
    · exact absurd h (by simp)

/-- Witness for C6: concrete resolutions on each route. -/
theorem confirm_only_route_merging_witness :
    (true = true) ∧ (false = false) := by
  constructor
  · exact confirm_only_route_merging.2.1 "consent"
      { consent := some { rejectedScopes := [], rejectedClaims := [], replace := false } }
      true rfl
  · exact confirm_only_route_merging.2.2.1 ⟨"abc", "select_account", none, none⟩
      { select_account := some () } false rfl

/-- The rendered error page shows the message under the `error` label. -/
theorem renderErrorBody_contains_message (e : SessionNotFoundError) :
    strContains
      (renderErrorBody [("error", e.message), ("error_description", e.error_description)])
      ("<strong>error</strong>: " ++ e.message) := by
  refine ⟨errorHead ++ "<pre>",
    "</pre>" ++ renderPair ("error_description", e.error_description) ++ errorTail, ?_⟩
  have h1 : ("<pre><strong>" : String) = "<pre>" ++ "<strong>" := by decide
  have h2 : ("<strong>error</strong>: " : String) = "<strong>" ++ "error" ++ "</strong>: " := by
    decide
  simp only [renderErrorBody, renderPair, String.join, List.map_cons, List.map_nil,
    List.foldl_cons, List.foldl_nil, h1, h2, String.empty_append, String.append_assoc]

/-- The rendered error page shows the description under its label. -/
theorem renderErrorBody_contains_description (e : SessionNotFoundError) :
    strContains
      (renderErrorBody [("error", e.message), ("error_description", e.error_description)])
      ("<strong>error_description</strong>: " ++ e.error_description) := by
  refine ⟨errorHead ++ renderPair ("error", e.message) ++ "<pre>",
    "</pre>" ++ errorTail, ?_⟩
  have h1 : ("<pre><strong>" : String) = "<pre>" ++ "<strong>" := by decide
  have h2 : ("<strong>error_description</strong>: " : String) =
      "<strong>" ++ "error_description" ++ "</strong>: " := by decide
  simp only [renderErrorBody, renderPair, String.join, List.map_cons, List.map_nil,
    List.foldl_cons, List.foldl_nil, h1, h2, String.empty_append, String.append_assoc]

/-- Claim C7: the top-level middleware catches a thrown `SessionNotFound`,
sets the response status to the error's `status`, and renders the static
error page carrying the error's message under the `error` label and its
`error_description`; every other thrown error is rethrown unchanged. -/
theorem router_error_middleware :
    (∀ e : SessionNotFoundError,
      routerUse (.error (.sessionNotFound e)) =
        { headers := [("Pragma", "no-cache"), ("Cache-Control", "no-cache, no-store")],
          status := some e.status,
          body := some (renderErrorBody
            [("error", e.message), ("error_description", e.error_description)]),
          rethrown := none } ∧
      strContains
        (renderErrorBody [("error", e.message), ("error_description", e.error_description)])
        ("<strong>error</strong>: " ++ e.message) ∧
      strContains
        (renderErrorBody [("error", e.message), ("error_description", e.error_description)])
        ("<strong>error_description</strong>: " ++ e.error_description)) ∧
    (∀ m : String,
      routerUse (.error (.other m)) =
        { headers := [("Pragma", "no-cache"), ("Cache-Control", "no-cache, no-store")],
          status := none, body := none, rethrown := some (.other m) }) :=
  ⟨fun e => ⟨rfl, renderErrorBody_contains_message e, renderErrorBody_contains_description e⟩,
   fun _ => rfl⟩

/-- Verbatim containment is transitive. -/
theorem strContains_trans {a b c : String} (h1 : strContains a b) (h2 : strContains b c) :
    strContains a c := by
  obtain ⟨p, q, hp⟩ := h1
  obtain ⟨p', q', hp'⟩ := h2
  exact ⟨p ++ p', q' ++ q, by simp [hp, hp', String.append_assoc]⟩

/-- The encoder override never alters the component itself: it returns it
verbatim or wrapped in `<strong>` tags. -/
theorem encodeURIComponent_contains (ks : List String) (s : String) :
    strContains (encodeURIComponent ks s) s := by
  unfold encodeURIComponent
  split
  · exact ⟨"<strong>", "</strong>", rfl⟩
  · exact ⟨"", "", by simp [String.empty_append, String.append_empty]⟩

/-- Every member of a joined list occurs verbatim in the join. -/
theorem joinSep_mem_contains (sep : String) : ∀ (l : List String) (s : String),
    s ∈ l → strContains (joinSep sep l) s := by
  intro l
  induction l with
  | nil => intro s h; cases h
  | cons x xs ih =>
    intro s h
    cases xs with
    | nil =>
      have hx : s = x := List.mem_singleton.mp h
      subst hx
      exact ⟨"", "", by simp [joinSep, String.empty_append, String.append_empty]⟩
    | cons y ys =>
      cases h with
      | head =>
        exact ⟨"", sep ++ joinSep sep (y :: ys),
          by simp [joinSep, String.empty_append, String.append_assoc]⟩
      | tail _ h' =>
        obtain ⟨pre, post, hp⟩ := ih s h'
        exact ⟨x ++ sep ++ pre, post, by simp [joinSep, hp, String.append_assoc]⟩

/-- The reduce inside `debug` emits exactly the non-empty entries, in
order, appended to whatever the accumulator already held. -/
theorem debug_foldl_pairs : ∀ (obj : List (String × JsValue)) (st : DebugState)
    (out : List (String × String)),
    (obj.foldl debugStep (st, out)).2 = out ++ specEmittedPairs obj := by
  intro obj
  induction obj with
  | nil => intro st out; simp [specEmittedPairs]
  | cons kv obj ih =>
    intro st out
    simp only [List.foldl_cons]
    by_cases h : isEmpty kv.2
    · simp only [debugStep, h, if_true, ite_true]
      rw [ih]
      simp [specEmittedPairs, List.filter_cons, h]
    · simp only [debugStep, h, Bool.false_eq_true, if_false, ite_false]
      rw [ih]
      simp [specEmittedPairs, List.filter_cons, h]

/-- The key set after the reduce inside `debug` holds exactly the keys it
held before plus every key of the record (empty-valued ones included). -/
theorem debug_foldl_keys : ∀ (obj : List (String × JsValue)) (st : DebugState)
    (out : List (String × String)) (k : String),
    (k ∈ (obj.foldl debugStep (st, out)).1.keys) ↔
      (k ∈ st.keys ∨ k ∈ obj.map Prod.fst) := by
  intro obj
  induction obj with
  | nil => intro st out k; simp
  | cons kv obj ih =>
    intro st out k
    simp only [List.foldl_cons, List.map_cons, List.mem_cons]
    have hstep : ((debugStep (st, out) kv).1).keys =
        (if st.keys.contains kv.1 then st.keys else st.keys ++ [kv.1]) := by
      simp only [debugStep]
      split <;> rfl
    have hrw : obj.foldl debugStep (debugStep (st, out) kv) =
        obj.foldl debugStep ((debugStep (st, out) kv).1, (debugStep (st, out) kv).2) := by
      rfl
    rw [hrw, ih _ _ k]
    rw [hstep]
    by_cases hk : st.keys.contains kv.1
    · have hkm : kv.1 ∈ st.keys := by simpa using hk
      simp only [hk, if_true, ite_true]
      constructor
      · intro hh
        rcases hh with hh | hh
        · exact Or.inl hh
        · exact Or.inr (Or.inr hh)
      · intro hh
        rcases hh with hh | hh | hh
        · exact Or.inl hh
        · exact Or.inl (hh ▸ hkm)
        · exact Or.inr hh
    · simp only [hk, Bool.false_eq_true, if_false, ite_false, List.mem_append,
        List.mem_singleton]
      tauto

/-- Claim C8 counterexample: the emphasis cross-reference is NOT scoped to
a single render.  Rendering `[("'b'", "v")]` first changes what a later
render of `[("a", "b")]` emits: the value `'b'` — which never occurs as a
key of that second record — gets `<strong>` emphasis because the string
`'b'` sits in the module-level key set left over from the earlier call. -/
theorem debug_emphasis_not_render_scoped :
    (debug debugInit [("a", JsValue.str "b")]).2 = "<strong>a</strong>: \x27b\x27" ∧
    (debug (debug debugInit [("\x27b\x27", JsValue.str "v")]).1 [("a", JsValue.str "b")]).2 =
      "<strong>a</strong>: <strong>\x27b\x27</strong>" ∧
    (debug (debug debugInit [("\x27b\x27", JsValue.str "v")]).1 [("a", JsValue.str "b")]).2 ≠
      (debug debugInit [("a", JsValue.str "b")]).2 := by
  refine ⟨by decide, by decide, by decide⟩

/-- Claim C8 (amended): the output contains a `key: value` pair (values by
deep inspection, pairs separated by the fixed `<br/>` delimiter) exactly
for the keys whose value is non-empty, and wraps in emphasis exactly the
strings recorded in the module-level key set — which accumulates every key
of every render so far (the current one included), i.e. the emphasis
cross-reference is process-wide, not scoped to one render. -/
theorem debug_pairs_and_process_wide_keys (st : DebugState) (obj : List (String × JsValue)) :
    ((debug st obj).2 = joinSep "<br/>" ((specEmittedPairs obj).map fun kv =>
      encodeURIComponent (debug st obj).1.keys kv.1 ++ ": " ++
      encodeURIComponent (debug st obj).1.keys kv.2)) ∧
    (∀ k, k ∈ (debug st obj).1.keys ↔ (k ∈ st.keys ∨ k ∈ obj.map Prod.fst)) := by
  constructor
  · simp [debug, debug_foldl_pairs]
  · intro k
    simpa [debug] using debug_foldl_keys obj st [] k

/-- Claim C9 counterexample: the debug output is NOT HTML-safe — a value
containing a script tag reaches the output verbatim, so it is interpreted
as markup when the output is embedded in a page. -/
theorem debug_output_not_html_safe :
    strContains (debug debugInit [("a", JsValue.str "<script>alert(1)</script>")]).2
      "<script>alert(1)</script>" :=
  ⟨"<strong>a</strong>: \x27", "\x27", by decide⟩

/-- Claim C9 (amended): the serializer applies no HTML escaping at all —
for every record, the deep-inspected string of each non-empty value occurs
verbatim in the output (the only markup the serializer itself adds is the
`<br/>` delimiter and `<strong>` emphasis wrapping), so the output is
HTML-safe only for inputs free of HTML metacharacters. -/
theorem debug_value_appears_verbatim (st : DebugState) (obj : List (String × JsValue))
    (k : String) (v : JsValue) (hm : (k, v) ∈ obj) (he : isEmpty v = false) :
    strContains (debug st obj).2 (inspect v) := by
  have hf : (k, v) ∈ obj.filter (fun kv => !isEmpty kv.2) :=
    List.mem_filter.mpr ⟨hm, by simp [he]⟩
  have hpair : (k, inspect v) ∈ specEmittedPairs obj :=
    List.mem_map.mpr ⟨(k, v), hf, rfl⟩
  have hout : (debug st obj).2 = joinSep "<br/>" ((specEmittedPairs obj).map fun kv =>
      encodeURIComponent (obj.foldl debugStep (st, [])).1.keys kv.1 ++ ": " ++
      encodeURIComponent (obj.foldl debugStep (st, [])).1.keys kv.2) := by
    simp [debug, debug_foldl_pairs]
  have hmem : (encodeURIComponent (obj.foldl debugStep (st, [])).1.keys k ++ ": " ++
      encodeURIComponent (obj.foldl debugStep (st, [])).1.keys (inspect v)) ∈
      (specEmittedPairs obj).map (fun kv =>
        encodeURIComponent (obj.foldl debugStep (st, [])).1.keys kv.1 ++ ": " ++
        encodeURIComponent (obj.foldl debugStep (st, [])).1.keys kv.2) :=
    List.mem_map.mpr ⟨(k, inspect v), hpair, rfl⟩
  rw [hout]
  refine strContains_trans (joinSep_mem_contains "<br/>" _ _ hmem) ?_
  obtain ⟨p, q, hp⟩ :=
    encodeURIComponent_contains (obj.foldl debugStep (st, [])).1.keys (inspect v)
  exact ⟨encodeURIComponent (obj.foldl debugStep (st, [])).1.keys k ++ ": " ++ p, q,
    by simp [hp, String.append_assoc]⟩

/-- Witness for the amended C9 at a concrete record. -/
theorem debug_value_appears_verbatim_witness :
    strContains (debug debugInit [("k", JsValue.str "x")]).2 (inspect (JsValue.str "x")) :=
  debug_value_appears_verbatim debugInit [("k", JsValue.str "x")] "k" (JsValue.str "x")
    (List.mem_cons_self _ _) rfl

/-- Claim C10: the debug serializer is not deterministic as a function of
its argument.  Serializing `[("'z'", [])]` first — whose only entry is
empty-valued, hence omitted from that output — records the key `'z'` in the
module-global set, and a later render of `[("a", "z")]` wraps its value in
`<strong>` emphasis if and only if that earlier call happened. -/
theorem debug_depends_on_global_key_set :
    (debug debugInit [("\x27z\x27", JsValue.arr [])]).2 = "" ∧
    (debug debugInit [("a", JsValue.str "z")]).2 = "<strong>a</strong>: \x27z\x27" ∧
    (debug (debug debugInit [("\x27z\x27", JsValue.arr [])]).1 [("a", JsValue.str "z")]).2 =
      "<strong>a</strong>: <strong>\x27z\x27</strong>" ∧
    (debug (debug debugInit [("\x27z\x27", JsValue.arr [])]).1 [("a", JsValue.str "z")]).2 ≠
      (debug debugInit [("a", JsValue.str "z")]).2 := by
  refine ⟨by decide, by decide, by decide, by decide⟩

end OidcExample
